import Mathlib

/-!
Verification of the development-session orchestrator
(`scripts/run_android_live_reload.py`).

The Python source is shallowly embedded: pure helper functions become Lean
functions over `List Char` (Python `str`), external effects (socket binding,
process polling, WebSocket connection attempts) become oracles passed as
function arguments, and the control flow of `run()` (setup checks, the
supervisory loop, and the `finally` teardown block) is embedded as explicit
state-passing functions whose observable actions are recorded in lists.

The file is organised as definitions first (the embedding), then theorems.
-/

namespace LiveReload

/-! Python string primitives shared by the embedded functions. -/

/-- Python `str` is modelled as a list of characters. -/
abbrev PyStr := List Char

/-- Characters treated as whitespace by Python's `str.split()` /
`str.strip()` (the ASCII whitespace set). -/
def pyIsSpace (c : Char) : Bool :=
  c == ' ' || c == '\t' || c == '\n' || c == '\x0d' ||
  c == '\x0b' || c == '\x0c'

/-- Python `s.startswith(p)`. -/
def pyStartswith : PyStr → PyStr → Bool
  | _, [] => true
  | [], _ :: _ => false
  | c :: cs, p :: ps => c == p && pyStartswith cs ps

/-- Python `needle in hay` on strings (substring containment). -/
def strContains : PyStr → PyStr → Bool
  | [], needle => needle.isEmpty
  | hay@(_ :: t), needle => pyStartswith hay needle || strContains t needle

/-- Python `s.strip()` (with the ASCII whitespace set). -/
def pyStrip (s : PyStr) : PyStr :=
  ((s.dropWhile pyIsSpace).reverse.dropWhile pyIsSpace).reverse

/-- Accumulator-based worker for `pySplit`. -/
def pySplitAux : PyStr → PyStr → List PyStr
  | [], acc => if acc.isEmpty then [] else [acc.reverse]
  | c :: rest, acc =>
    if pyIsSpace c then
      if acc.isEmpty then pySplitAux rest [] else acc.reverse :: pySplitAux rest []
    else pySplitAux rest (c :: acc)

/-- Python `s.split()` with no arguments: split on runs of whitespace,
discarding empty fields. -/
def pySplit (s : PyStr) : List PyStr := pySplitAux s []

/-- Digit tail of a Python integer literal: after the first digit, each
underscore must be followed by a digit (`int("1_0") = 10`). -/
def pyDigitsTail : PyStr → Nat → Option Nat
  | [], acc => some acc
  | '_' :: c :: rest, acc =>
    if c.isDigit then pyDigitsTail rest (acc * 10 + (c.toNat - 48)) else none
  | ['_'], _ => none
  | c :: rest, acc =>
    if c.isDigit then pyDigitsTail rest (acc * 10 + (c.toNat - 48)) else none

/-- Unsigned part of Python `int(s)`: nonempty, first char a digit. -/
def pyDigits : PyStr → Option Nat
  | [] => none
  | c :: rest => if c.isDigit then pyDigitsTail rest (c.toNat - 48) else none

/-- Python `int(s)` on a whitespace-free field: optional sign followed by
digits (with embedded underscores); `none` models the `ValueError` branch. -/
def parsePyInt : PyStr → Option Int
  | '-' :: rest => (pyDigits rest).map (fun n => -(n : Int))
  | '+' :: rest => (pyDigits rest).map (fun n => (n : Int))
  | s => (pyDigits s).map (fun n => (n : Int))

/-- The relation "`needle` occurs as a contiguous substring of `hay`". -/
def occursIn (needle hay : PyStr) : Prop := ∃ pre suf, hay = pre ++ needle ++ suf

/-! Port allocator: source function `find_free_port`, lines 42-52. The
bind-probe on a socket is abstracted as an oracle `free : Nat → Bool`
saying whether binding a listening socket on that port succeeds. -/

/-- Probe `n` consecutive ports starting at `p`, returning the first one the
oracle reports bindable (the `for port in range(...)` loop body). -/
def scanPorts (free : Nat → Bool) : Nat → Nat → Option Nat
  | _, 0 => none
  | p, n + 1 => if free p then some p else scanPorts free (p + 1) n

/-- Source `find_free_port(host, start_port, tries)`: first bindable port in
`range(start_port, start_port + max(1, tries))`, else `start_port`. -/
def find_free_port (free : Nat → Bool) (start_port : Nat) (tries : Nat) : Nat :=
  match scanPorts free start_port (max 1 tries) with
  | some p => p
  | none => start_port

/-! Log filter pipeline: `is_console_line` (source lines 129-138), the
`app`-mode predicate closure (source lines 553-558) and
`parse_threadtime_pid` (source lines 119-126). Python's `str.upper()` is
modelled per-character with `Char.toUpper`, which agrees with Python on the
ASCII range (every tag is ASCII). -/

/-- The fixed tag set of `is_console_line`. -/
def console_tags : List PyStr :=
  [String.toList "CAPACITOR", String.toList "CHROMIUM", String.toList "CONSOLE",
   String.toList "WEBVIEW", String.toList "SYSTEMWEBCHROMECLIENT"]

/-- Source `is_console_line(line)`: the uppercased line contains one of the
tags. -/
def is_console_line (line : PyStr) : Bool :=
  let upper := line.map Char.toUpper
  console_tags.any (fun tag => strContains upper tag)

/-- The predicate installed for `console` logcat mode
(`lambda line: is_console_line(line)`, source line 567). It closes over no
PID state; the cell value is threaded here only to state that fact. -/
def console_mode_filter (_appPid : Option Int) (line : PyStr) : Bool :=
  is_console_line line

/-- Source `parse_threadtime_pid(line)`: third whitespace-separated field as
an integer, requiring at least five fields. -/
def parse_threadtime_pid (line : PyStr) : Option Int :=
  if (pySplit line).length < 5 then none
  else
    match (pySplit line).get? 2 with
    | some f => parsePyInt f
    | none => none

/-- The predicate installed for `app` logcat mode (source lines 556-557):
`app_pid_holder["pid"] is None or parse_threadtime_pid(line) == app_pid_holder["pid"]`. -/
def app_mode_filter (appPid : Option Int) (line : PyStr) : Bool :=
  appPid.isNone || (parse_threadtime_pid line == appPid)

/-! Device registry: `list_adb_devices` (source lines 302-335) and
`choose_target` (source lines 338-348). A device record is
`(serial, is_emulator)`. The `subprocess.run` call is abstracted as an
`AdbCallResult`: its stdout split into lines, or the `TimeoutExpired` /
`OSError` exceptional outcomes. -/

/-- Outcome of invoking `adb devices`. -/
inductive AdbCallResult where
  | ok (stdout_lines : List PyStr)
  | timeout
  | oserror

/-- The header line marker skipped by the parser. -/
def adb_header : PyStr := String.toList "List of devices"

/-- One iteration of the parsing loop of `list_adb_devices`: `none` means the
line is skipped, `some (serial, is_emulator)` means a record is appended. -/
def parse_device_line (raw : PyStr) : Option (PyStr × Bool) :=
  let line := pyStrip raw
  if line.isEmpty then none
  else if pyStartswith line adb_header then none
  else
    match pySplit line with
    | serial :: state :: _ =>
      if state = String.toList "device" then
        some (serial, pyStartswith serial (String.toList "emulator-"))
      else none
    | _ => none

/-- Source `list_adb_devices(adb_cmd, cwd)`: the device list together with a
flag recording whether the warning print was reached. -/
def list_adb_devices : AdbCallResult → List (PyStr × Bool) × Bool
  | .ok stdout_lines => (stdout_lines.filterMap parse_device_line, false)
  | .timeout => ([], true)
  | .oserror => ([], false)

/-- The `for serial, is_emulator in devices` loop of `choose_target`:
serial of the first non-emulator device, if any. -/
def first_non_emulator : List (PyStr × Bool) → Option PyStr
  | [] => none
  | (serial, isEmu) :: rest =>
    if isEmu then first_non_emulator rest else some serial

/-- The selection logic of `choose_target` over an already-fetched device
list (source lines 340-348). -/
def choose_target (devices : List (PyStr × Bool)) : Option PyStr :=
  match devices with
  | [] => none
  | [d] => some d.1
  | d :: rest =>
    match first_non_emulator (d :: rest) with
    | some serial => some serial
    | none => some d.1

/-! Remote debug bridge: `start_cdp_console_stream`, source lines 197-238.
The three `websocket.create_connection` attempts differ only in their Origin
header; each attempt is abstracted as an oracle returning either a
connection or the raised exception. -/

/-- Origin-header variants tried, in source order. -/
inductive OriginMode where
  | noOrigin
  | inspectOrigin
  | localhostOrigin
deriving DecidableEq

/-- The fallback chain of `cdp_pump` (source lines 200-238): try each origin
mode in order, keep the first successful connection, re-raise `last_err`
(the error of the latest failed attempt) when all fail. The second component
records the attempts actually made, in order. -/
def create_connection_fallback {ε σ : Type} (attempt : OriginMode → Except ε σ) :
    Except ε σ × List OriginMode :=
  match attempt .noOrigin with
  | .ok ws => (.ok ws, [.noOrigin])
  | .error _ =>
    match attempt .inspectOrigin with
    | .ok ws => (.ok ws, [.noOrigin, .inspectOrigin])
    | .error _ =>
      match attempt .localhostOrigin with
      | .ok ws => (.ok ws, [.noOrigin, .inspectOrigin, .localhostOrigin])
      | .error e3 => (.error e3, [.noOrigin, .inspectOrigin, .localhostOrigin])

/-- Outcome of the bridge worker thread. -/
inductive WorkerExit where
  | connected
  | failedLogged
deriving DecidableEq

/-- How `cdp_pump` finishes its connection phase: a raised connection error
is caught by the worker's own handler (source lines 288-289), which prints
it and returns — the worker always terminates normally, never propagating
into the session. -/
def cdp_worker_exit {ε σ : Type} (attempt : OriginMode → Except ε σ) : WorkerExit :=
  match (create_connection_fallback attempt).1 with
  | .ok _ => .connected
  | .error _ => .failedLogged

/-! Teardown: the `finally` block of `run`, source lines 653-665. The block
terminates the logcat process when its handle is set and it is still alive
(grace 5 s, then kill), then the dev-server process when its handle is
non-null (grace 10 s, then kill). The native-app-runner (`cap_proc`) handle
is not touched by this block. Handles are modelled by `Option Bool`
(`none` = never spawned / nulled, `some alive`), and the two `wait` calls by
a flag saying whether they raised `TimeoutExpired`. -/

/-- An observable action of the teardown path. -/
inductive TermAction where
  | term (label : String)
  | waitGrace (label : String) (secs : Nat)
  | kill (label : String)
deriving DecidableEq

/-- The managed process a teardown action addresses. -/
def TermAction.label : TermAction → String
  | .term l => l
  | .waitGrace l _ => l
  | .kill l => l

/-- Actions of `if logcat_proc and logcat_proc.poll() is None: ...`. -/
def teardown_logcat_part (logcatHandle : Option Bool) (waitTimesOut : Bool) :
    List TermAction :=
  match logcatHandle with
  | some true =>
    [TermAction.term "logcat", TermAction.waitGrace "logcat" 5] ++
      (if waitTimesOut then [TermAction.kill "logcat"] else [])
  | _ => []

/-- Actions of `if dev_proc is not None: ...`. -/
def teardown_dev_part (devHandle : Option Bool) (waitTimesOut : Bool) :
    List TermAction :=
  match devHandle with
  | some _ =>
    [TermAction.term "dev", TermAction.waitGrace "dev" 10] ++
      (if waitTimesOut then [TermAction.kill "dev"] else [])
  | none => []

/-- The complete `finally` block. `_capHandle` is the state of the
native-app-runner handle at teardown time; the block never reads it. -/
def teardown (logcatHandle devHandle _capHandle : Option Bool)
    (logcatTimesOut devTimesOut : Bool) : List TermAction :=
  teardown_logcat_part logcatHandle logcatTimesOut ++
    teardown_dev_part devHandle devTimesOut

/-! Supervisory loop: the `while True` of `run`, source lines 630-652. Each
iteration polls the native-app-runner and dev-server handles; a non-`None`
poll result means the child exited, upon which the loop prints the exit
code and nulls the handle, but never breaks. The loop returns only when
`KeyboardInterrupt` is raised, with exit code 0. Iterations and the
interrupt are modelled as an event list. -/

/-- A message printed by the supervisory loop. -/
inductive SessionLog where
  | capExited (code : Int)
  | devExited (code : Int)
deriving DecidableEq

/-- Live state of the supervisory loop: whether each handle is non-null,
plus the printed log. -/
structure LoopState where
  cap : Bool
  dev : Bool
  log : List SessionLog
deriving DecidableEq

/-- One event delivered to the loop: a poll iteration (with the poll results
of the two handles, `some code` meaning the child exited) or a
`KeyboardInterrupt`. -/
inductive LoopEvent where
  | tick (capPoll devPoll : Option Int)
  | interrupt
deriving DecidableEq

/-- Branch `if cap_proc is not None and cap_proc.poll() is not None`
(source lines 635-640). -/
def poll_cap (capPoll : Option Int) (s : LoopState) : LoopState :=
  match s.cap, capPoll with
  | true, some c => { s with cap := false, log := s.log ++ [SessionLog.capExited c] }
  | _, _ => s

/-- Branch `if dev_proc is not None and dev_proc.poll() is not None`
(source lines 644-649). -/
def poll_dev (devPoll : Option Int) (s : LoopState) : LoopState :=
  match s.dev, devPoll with
  | true, some c => { s with dev := false, log := s.log ++ [SessionLog.devExited c] }
  | _, _ => s

/-- One iteration of the loop body: check `cap_proc`, then `dev_proc`. -/
def loop_step (capPoll devPoll : Option Int) (s : LoopState) : LoopState :=
  poll_dev devPoll (poll_cap capPoll s)

/-- The supervisory loop over an event trace: `some 0` when an interrupt
arrived (the `except KeyboardInterrupt: return 0` path), `none` when the
trace ran out with the loop still running. -/
def session_loop : List LoopEvent → LoopState → Option Nat × LoopState
  | [], s => (none, s)
  | .interrupt :: _, s => (some 0, s)
  | .tick capPoll devPoll :: rest, s => session_loop rest (loop_step capPoll devPoll s)

/-! Entry-point setup checks and exit codes: `run`, source lines 387-665.
Only the control flow relevant to exit codes is embedded: the order of the
fatal setup checks (wifi mode without a host, then npm and npx lookup on
PATH), the fact that they run before any child process is spawned, and the
exit code produced by the supervisory loop's interrupt path. -/

/-- Child processes spawned by `run`, in spawn order. -/
inductive ChildProc where
  | adbQuery
  | devServer
  | logcatStream
  | capRun
deriving DecidableEq

/-- Inputs of one invocation of `run`: parsed flags, tool availability on
PATH, and the supervisory-loop event trace. -/
structure RunEnv where
  mode_wifi : Bool
  host : Option String
  npm_found : Bool
  npx_found : Bool
  adb_found : Bool
  logcat_flag : Bool
  events : List LoopEvent

/-- Python truthiness of `not args.host` (source line 446): `None` and the
empty string are both falsy. -/
def host_missing : Option String → Bool
  | none => true
  | some s => s.isEmpty

/-- Source `run()` reduced to its exit code and the child processes it
spawned: the wifi-host check (line 446) and the npm and npx checks (lines
461-466) all return 2 before anything is spawned; otherwise the session
spawns its children and runs the supervisory loop until interrupted.
`none` means the invocation is still running. -/
def run (env : RunEnv) : Option Nat × List ChildProc :=
  if env.mode_wifi && host_missing env.host then (some 2, [])
  else if !env.npm_found then (some 2, [])
  else if !env.npx_found then (some 2, [])
  else
    ((session_loop env.events ⟨true, true, []⟩).1,
      (if env.adb_found then [ChildProc.adbQuery] else []) ++ [ChildProc.devServer] ++
        (if env.logcat_flag && env.adb_found then [ChildProc.logcatStream] else []) ++
        [ChildProc.capRun])

/-! Helper lemmas. -/

theorem pyStartswith_iff (s p : PyStr) :
    pyStartswith s p = true ↔ ∃ t, s = p ++ t := by
  induction p generalizing s with
  | nil => simp [pyStartswith]
  | cons c ps ih =>
    cases s with
    | nil => simp [pyStartswith]
    | cons a as =>
      simp only [pyStartswith, Bool.and_eq_true, beq_iff_eq, ih]
      constructor
      · rintro ⟨rfl, t, rfl⟩; exact ⟨t, rfl⟩
      · rintro ⟨t, h⟩
        injection h with h1 h2
        exact ⟨h1, t, h2⟩

theorem strContains_iff (hay needle : PyStr) :
    strContains hay needle = true ↔ occursIn needle hay := by
  induction hay with
  | nil =>
    simp only [strContains, occursIn, List.isEmpty_iff]
    constructor
    · rintro rfl; exact ⟨[], [], rfl⟩
    · rintro ⟨pre, suf, h⟩
      rcases List.append_eq_nil.mp (List.append_eq_nil.mp h.symm).1 with ⟨_, h2⟩
      exact h2
  | cons a t ih =>
    simp only [strContains, Bool.or_eq_true, pyStartswith_iff, ih, occursIn]
    constructor
    · rintro (⟨s, hs⟩ | ⟨pre, suf, rfl⟩)
      · exact ⟨[], s, by simpa using hs⟩
      · exact ⟨a :: pre, suf, rfl⟩
    · rintro ⟨pre, suf, h⟩
      cases pre with
      | nil =>
        left
        exact ⟨suf, by simpa using h⟩
      | cons b bs =>
        right
        injection h with _ h2
        exact ⟨bs, suf, h2⟩

theorem scanPorts_none (free : Nat → Bool) :
    ∀ n p, (∀ i, i < n → free (p + i) = false) → scanPorts free p n = none := by
  intro n
  induction n with
  | zero => intro p _; rfl
  | succ m ih =>
    intro p h
    have h0 : free p = false := by simpa using h 0 (Nat.succ_pos m)
    have step : scanPorts free p (m + 1) = scanPorts free (p + 1) m := by
      simp [scanPorts, h0]
    rw [step]
    apply ih
    intro i hi
    have e : p + 1 + i = p + (i + 1) := by omega
    rw [e]
    exact h (i + 1) (by omega)

theorem scanPorts_first (free : Nat → Bool) :
    ∀ n j p, j < n → free (p + j) = true → (∀ k, k < j → free (p + k) = false) →
      scanPorts free p n = some (p + j) := by
  intro n
  induction n with
  | zero => intro j p hj _ _; exact absurd hj (Nat.not_lt_zero j)
  | succ m ih =>
    intro j p hj hfree hbefore
    cases j with
    | zero =>
      have hp : free p = true := by simpa using hfree
      simp [scanPorts, hp]
    | succ j' =>
      have hp : free p = false := by simpa using hbefore 0 (Nat.succ_pos j')
      have step : scanPorts free p (m + 1) = scanPorts free (p + 1) m := by
        simp [scanPorts, hp]
      rw [step]
      have hf : free (p + 1 + j') = true := by
        have e : p + 1 + j' = p + (j' + 1) := by omega
        rw [e]; exact hfree
      have hb : ∀ k, k < j' → free (p + 1 + k) = false := by
        intro k hk
        have e : p + 1 + k = p + (k + 1) := by omega
        rw [e]; exact hbefore (k + 1) (by omega)
      have := ih j' (p + 1) (by omega) hf hb
      rw [this]
      have e : p + 1 + j' = p + (j' + 1) := by omega
      rw [e]

theorem first_non_emulator_all_emulators :
    ∀ l : List (PyStr × Bool), (∀ d ∈ l, d.2 = true) → first_non_emulator l = none := by
  intro l
  induction l with
  | nil => intro _; rfl
  | cons d rest ih =>
    intro h
    obtain ⟨s, b⟩ := d
    have hb : b = true := h (s, b) (List.mem_cons_self _ _)
    subst hb
    simpa [first_non_emulator] using ih (fun x hx => h x (List.mem_cons_of_mem _ hx))

theorem first_non_emulator_first (s : PyStr) :
    ∀ pre suf, (∀ d ∈ pre, d.2 = true) →
      first_non_emulator (pre ++ (s, false) :: suf) = some s := by
  intro pre
  induction pre with
  | nil => intro suf _; simp [first_non_emulator]
  | cons d rest ih =>
    intro suf h
    obtain ⟨t, b⟩ := d
    have hb : b = true := h (t, b) (List.mem_cons_self _ _)
    subst hb
    simpa [first_non_emulator] using ih suf (fun x hx => h x (List.mem_cons_of_mem _ hx))

theorem first_non_emulator_none :
    ∀ l : List (PyStr × Bool), first_non_emulator l = none → ∀ d ∈ l, d.2 = true := by
  intro l
  induction l with
  | nil => intro _ d hd; exact absurd hd (List.not_mem_nil d)
  | cons p rest ih =>
    intro h d hd
    obtain ⟨t, b⟩ := p
    cases b with
    | false => simp [first_non_emulator] at h
    | true =>
      simp only [first_non_emulator, if_pos rfl] at h
      rcases List.mem_cons.mp hd with rfl | hd2
      · rfl
      · exact ih h d hd2

theorem first_non_emulator_mem :
    ∀ l : List (PyStr × Bool), ∀ s, first_non_emulator l = some s → (s, false) ∈ l := by
  intro l
  induction l with
  | nil => intro s h; exact absurd h (by simp [first_non_emulator])
  | cons d rest ih =>
    intro s h
    obtain ⟨t, b⟩ := d
    cases b with
    | true =>
      simp only [first_non_emulator, if_pos rfl] at h
      exact List.mem_cons_of_mem _ (ih s h)
    | false =>
      have h2 : t = s := by simpa [first_non_emulator] using h
      subst h2
      exact List.mem_cons_self _ _

theorem choose_target_cons_cons (d1 d2 : PyStr × Bool) (rest : List (PyStr × Bool)) :
    choose_target (d1 :: d2 :: rest) =
      match first_non_emulator (d1 :: d2 :: rest) with
      | some serial => some serial
      | none => some d1.1 := rfl

theorem session_loop_no_interrupt (events : List LoopEvent) :
    ∀ s, LoopEvent.interrupt ∉ events → (session_loop events s).1 = none := by
  induction events with
  | nil => intro s _; rfl
  | cons e rest ih =>
    intro s h
    cases e with
    | interrupt => exact absurd (List.mem_cons_self _ _) h
    | tick c d =>
      exact ih (loop_step c d s) (fun hm => h (List.mem_cons_of_mem _ hm))

theorem session_loop_interrupt (events : List LoopEvent) :
    ∀ s, LoopEvent.interrupt ∈ events → (session_loop events s).1 = some 0 := by
  induction events with
  | nil => intro s h; exact absurd h (List.not_mem_nil _)
  | cons e rest ih =>
    intro s h
    cases e with
    | interrupt => rfl
    | tick c d =>
      rcases List.mem_cons.mp h with h | h
      · exact absurd h.symm (by simp)
      · exact ih (loop_step c d s) h

/-! Claim theorems. -/

/-- C2: the port allocator returns the first bindable port in
`[P, P + N)`, and returns `P` unchanged when every port in that window is
occupied (exhaustion fallback). -/
theorem find_free_port_contract (free : Nat → Bool) (P N : Nat) :
    ((∀ i, i < N → free (P + i) = false) → find_free_port free P N = P) ∧
    (∀ j, j < N → free (P + j) = true → (∀ k, k < j → free (P + k) = false) →
      find_free_port free P N = P + j) := by
  constructor
  · intro h
    by_cases hN : N = 0
    · subst hN
      unfold find_free_port
      cases hfp : free P <;> simp [scanPorts, hfp]
    · have hm : max 1 N = N := by omega
      unfold find_free_port
      rw [hm, scanPorts_none free N P h]
  · intro j hj hf hb
    have hm : max 1 N = N := by omega
    unfold find_free_port
    rw [hm, scanPorts_first free N j P hj hf hb]

/-- C2 witness: with ports 5 and 6 occupied and 7 free, a scan starting at 5
with a budget of 20 returns 7. -/
theorem find_free_port_contract_witness :
    find_free_port (fun n => n == 7) 5 20 = 7 := by
  have h := (find_free_port_contract (fun n => n == 7) 5 20).2 2 (by omega)
    (by decide) (by decide)
  simpa using h

/-- C4: the console-mode predicate is true exactly when the uppercased line
contains a tag of the fixed set, in particular for any line containing
"CONSOLE" in any letter case; it is false when no tag occurs; and its value
does not depend on the discovered-PID cell. -/
theorem is_console_line_contract :
    (∀ p q line, console_mode_filter p line = console_mode_filter q line) ∧
    (∀ line, is_console_line line = true ↔
      ∃ tag ∈ console_tags, occursIn tag (line.map Char.toUpper)) ∧
    (∀ line sub, occursIn sub line → sub.map Char.toUpper = String.toList "CONSOLE" →
      is_console_line line = true) ∧
    (∀ line, (∀ tag ∈ console_tags, ¬ occursIn tag (line.map Char.toUpper)) →
      is_console_line line = false) := by
  have hiff : ∀ line, is_console_line line = true ↔
      ∃ tag ∈ console_tags, occursIn tag (line.map Char.toUpper) := by
    intro line
    simp [is_console_line, List.any_eq_true, strContains_iff]
  refine ⟨fun _ _ _ => rfl, hiff, ?_, ?_⟩
  · rintro line sub ⟨pre, suf, rfl⟩ hsub
    refine (hiff _).mpr ⟨String.toList "CONSOLE", by decide, pre.map Char.toUpper,
      suf.map Char.toUpper, ?_⟩
    rw [List.map_append, List.map_append, hsub]
  · intro line h
    cases hc : is_console_line line with
    | false => rfl
    | true =>
      obtain ⟨tag, htag, hocc⟩ := (hiff line).mp hc
      exact absurd hocc (h tag htag)

/-- C4 witness: a line containing "Console" in mixed case passes, and the
predicate value is identical whatever the PID cell holds. -/
theorem is_console_line_contract_witness :
    is_console_line (String.toList "x Console y") = true ∧
    console_mode_filter (some 7) (String.toList "x Console y") =
      console_mode_filter none (String.toList "x Console y") := by
  constructor
  · exact is_console_line_contract.2.2.1 (String.toList "x Console y")
      (String.toList "Console")
      ⟨String.toList "x ", String.toList " y", by decide⟩ (by decide)
  · exact is_console_line_contract.1 (some 7) none (String.toList "x Console y")

/-- C5: the app-mode predicate passes every line while the PID cell is unset
(fail open), and once the cell holds `P` it passes exactly the lines whose
parsed thread/process-id field equals `P`. -/
theorem app_mode_filter_contract :
    (∀ line, app_mode_filter none line = true) ∧
    (∀ P line, (app_mode_filter (some P) line = true ↔
      parse_threadtime_pid line = some P)) := by
  constructor
  · intro line; rfl
  · intro P line
    simp [app_mode_filter]

/-- C10: once a PID is set, a line with fewer than five whitespace-separated
fields, or whose third field is not a Python integer, is suppressed: the
parser yields `none`, which never equals the discovered PID. -/
theorem app_mode_filter_suppresses_unparsed (P : Int) (line : PyStr)
    (h : (pySplit line).length < 5 ∨
      ((pySplit line).get? 2).bind parsePyInt = none) :
    parse_threadtime_pid line = none ∧ app_mode_filter (some P) line = false := by
  have hparse : parse_threadtime_pid line = none := by
    by_cases hl : (pySplit line).length < 5
    · simp [parse_threadtime_pid, hl]
    · rcases h with h | h
      · exact absurd h hl
      · have h2 : 2 < (pySplit line).length := by omega
        rw [List.get?_eq_get h2] at h
        simp only [Option.some_bind] at h
        simp only [parse_threadtime_pid, if_neg hl]
        rw [List.get?_eq_get h2]
        simpa using h
  refine ⟨hparse, ?_⟩
  simp [app_mode_filter, hparse]

/-- C10 witness: with PID 42 discovered, the five-field line whose third
field is "abc" is suppressed. -/
theorem app_mode_filter_suppresses_unparsed_witness :
    parse_threadtime_pid (String.toList "a b abc d e") = none ∧
    app_mode_filter (some 42) (String.toList "a b abc d e") = false :=
  app_mode_filter_suppresses_unparsed 42 (String.toList "a b abc d e")
    (Or.inr (by decide))

/-- C3: the target chooser returns `none` for an empty list, the sole entry
for a singleton, the first entry when every device is an emulator, and the
first non-emulator device otherwise; whenever a non-emulator device exists
the returned serial belongs to a non-emulator entry. -/
theorem choose_target_contract (devices : List (PyStr × Bool)) :
    (devices = [] → choose_target devices = none) ∧
    (∀ d, devices = [d] → choose_target devices = some d.1) ∧
    (∀ hd tl, devices = hd :: tl → (∀ d ∈ devices, d.2 = true) →
      choose_target devices = some hd.1) ∧
    (∀ pre s suf, devices = pre ++ (s, false) :: suf → (∀ d ∈ pre, d.2 = true) →
      choose_target devices = some s) ∧
    ((∃ d ∈ devices, d.2 = false) →
      ∃ s, choose_target devices = some s ∧ (s, false) ∈ devices) := by
  refine ⟨?_, ?_, ?_, ?_, ?_⟩
  · rintro rfl; rfl
  · rintro d rfl; rfl
  · rintro hd tl rfl hall
    cases tl with
    | nil => rfl
    | cons d2 tl2 =>
      have hnone := first_non_emulator_all_emulators (hd :: d2 :: tl2) hall
      rw [choose_target_cons_cons, hnone]
  · rintro pre s suf rfl hpre
    have hfirst := first_non_emulator_first s pre suf hpre
    cases pre with
    | nil =>
      cases suf with
      | nil => rfl
      | cons y ys =>
        rw [List.nil_append] at hfirst ⊢
        rw [choose_target_cons_cons, hfirst]
    | cons p ps =>
      cases hps : ps ++ (s, false) :: suf with
      | nil => exact absurd hps (by simp)
      | cons q qs =>
        rw [List.cons_append, hps] at hfirst ⊢
        rw [choose_target_cons_cons, hfirst]
  · intro hex
    cases hdev : devices with
    | nil => simp [hdev] at hex
    | cons d rest =>
      cases rest with
      | nil =>
        obtain ⟨x, hx, hx2⟩ := hex
        rw [hdev] at hx
        have hxd : x = d := by simpa using hx
        have hd2 : d.2 = false := hxd ▸ hx2
        refine ⟨d.1, rfl, ?_⟩
        have hpair : (d.1, false) = d := by
          rw [← hd2]
        rw [hpair]
        exact List.mem_cons_self _ _
      | cons d2 rest2 =>
        cases hfne : first_non_emulator (d :: d2 :: rest2) with
        | none =>
          exfalso
          obtain ⟨x, hx, hx2⟩ := hex
          rw [hdev] at hx
          have := first_non_emulator_none (d :: d2 :: rest2) hfne x hx
          rw [hx2] at this
          exact Bool.false_ne_true this
        | some s =>
          refine ⟨s, ?_, first_non_emulator_mem _ s hfne⟩
          rw [choose_target_cons_cons, hfne]

/-- C3 witness: with an emulator listed first and a physical device second,
the physical device's serial is chosen. -/
theorem choose_target_contract_witness :
    choose_target [(String.toList "emulator-5554", true), (String.toList "R58M", false)] =
      some (String.toList "R58M") :=
  (choose_target_contract _).2.2.2.1 [(String.toList "emulator-5554", true)]
    (String.toList "R58M") [] rfl (by decide)

/-- C8 counterexample: when the bridge binary is absent (`OSError` from
`subprocess.run`, source lines 319-320) the function returns `[]` without
printing any warning — the warning-reached flag is `false`, while the claim
asserts a warning is emitted on that path as well. -/
theorem list_adb_devices_oserror_silent :
    list_adb_devices AdbCallResult.oserror = ([], false) := rfl

/-- C8 amended: enumeration output is parsed line-by-line, skipping the
header line, lines with fewer than two fields, and devices whose state is
not "device"; ready devices are recorded with their emulator flag. On
timeout the function returns `[]` and emits a warning; on the bridge binary
being absent (`OSError`) it returns `[]` silently; it never fails fatally. -/
theorem list_adb_devices_contract :
    (list_adb_devices AdbCallResult.timeout = ([], true)) ∧
    (∀ lines, list_adb_devices (AdbCallResult.ok lines) =
      (lines.filterMap parse_device_line, false)) ∧
    (∀ raw, pyStartswith (pyStrip raw) adb_header = true →
      parse_device_line raw = none) ∧
    (∀ raw serial state rest, pySplit (pyStrip raw) = serial :: state :: rest →
      state ≠ String.toList "device" → parse_device_line raw = none) ∧
    (∀ raw, (pySplit (pyStrip raw)).length < 2 → parse_device_line raw = none) ∧
    (∀ raw serial rest, pySplit (pyStrip raw) = serial :: String.toList "device" :: rest →
      pyStartswith (pyStrip raw) adb_header = false → (pyStrip raw).isEmpty = false →
      parse_device_line raw =
        some (serial, pyStartswith serial (String.toList "emulator-"))) := by
  refine ⟨rfl, fun _ => rfl, ?_, ?_, ?_, ?_⟩
  · intro raw hhdr
    by_cases he : (pyStrip raw).isEmpty
    · simp [parse_device_line, he]
    · simp [parse_device_line, he, hhdr]
  · intro raw serial state rest hsplit hstate
    by_cases he : (pyStrip raw).isEmpty
    · simp [parse_device_line, he]
    · by_cases hhdr : pyStartswith (pyStrip raw) adb_header
      · simp [parse_device_line, he, hhdr]
      · simp [parse_device_line, he, hhdr, hsplit]
        intro h
        exact hstate (h.trans (by decide))
  · intro raw hlen
    by_cases he : (pyStrip raw).isEmpty
    · simp [parse_device_line, he]
    · by_cases hhdr : pyStartswith (pyStrip raw) adb_header
      · simp [parse_device_line, he, hhdr]
      · cases hsplit : pySplit (pyStrip raw) with
        | nil => simp [parse_device_line, he, hhdr, hsplit]
        | cons f fs =>
          cases fs with
          | nil => simp [parse_device_line, he, hhdr, hsplit]
          | cons g gs =>
            rw [hsplit] at hlen
            simp at hlen
            omega
  · intro raw serial rest hsplit hhdr he
    simp [parse_device_line, he, hhdr, hsplit]

/-- C8 witness: an "unauthorized" device line is skipped, and a full
enumeration output containing the header, an emulator, an unauthorized
device and a ready device parses to exactly the ready entries, warning-free. -/
theorem list_adb_devices_contract_witness :
    parse_device_line (String.toList "ABC123\tunauthorized") = none ∧
    list_adb_devices (AdbCallResult.ok
      [String.toList "List of devices attached",
       String.toList "emulator-5554\tdevice",
       String.toList "ABC123\tunauthorized",
       String.toList "R58M  device"]) =
      ([(String.toList "emulator-5554", true), (String.toList "R58M", false)], false) := by
  constructor
  · exact list_adb_devices_contract.2.2.2.1 (String.toList "ABC123\tunauthorized")
      (String.toList "ABC123") (String.toList "unauthorized") [] (by decide) (by decide)
  · rw [list_adb_devices_contract.2.1]
    decide

/-- C6: connection is attempted in the fixed order no-Origin,
chrome://inspect, http://localhost:9222, stopping at the first success; when
all three fail the third attempt's error is surfaced, exactly three attempts
are made, and only the bridge worker aborts (its error is caught locally). -/
theorem cdp_fallback_contract {ε σ : Type} (attempt : OriginMode → Except ε σ) :
    (∀ w, attempt .noOrigin = .ok w →
      create_connection_fallback attempt = (.ok w, [.noOrigin])) ∧
    (∀ e1 w, attempt .noOrigin = .error e1 → attempt .inspectOrigin = .ok w →
      create_connection_fallback attempt = (.ok w, [.noOrigin, .inspectOrigin])) ∧
    (∀ e1 e2 w, attempt .noOrigin = .error e1 → attempt .inspectOrigin = .error e2 →
      attempt .localhostOrigin = .ok w →
      create_connection_fallback attempt =
        (.ok w, [.noOrigin, .inspectOrigin, .localhostOrigin])) ∧
    (∀ e1 e2 e3, attempt .noOrigin = .error e1 → attempt .inspectOrigin = .error e2 →
      attempt .localhostOrigin = .error e3 →
      create_connection_fallback attempt =
        (.error e3, [.noOrigin, .inspectOrigin, .localhostOrigin]) ∧
      cdp_worker_exit attempt = .failedLogged) := by
  refine ⟨?_, ?_, ?_, ?_⟩
  · intro w h1
    simp [create_connection_fallback, h1]
  · intro e1 w h1 h2
    simp [create_connection_fallback, h1, h2]
  · intro e1 e2 w h1 h2 h3
    simp [create_connection_fallback, h1, h2, h3]
  · intro e1 e2 e3 h1 h2 h3
    constructor
    · simp [create_connection_fallback, h1, h2, h3]
    · simp [cdp_worker_exit, create_connection_fallback, h1, h2, h3]

/-- C6 witness: with the three attempts failing with errors 1, 2 and 3
respectively, error 3 is surfaced after exactly the three ordered attempts,
and the worker logs the failure instead of propagating it. -/
theorem cdp_fallback_contract_witness :
    create_connection_fallback
      (fun m => (.error (match m with
        | .noOrigin => 1
        | .inspectOrigin => 2
        | .localhostOrigin => 3) : Except Nat Unit)) =
      (.error 3, [.noOrigin, .inspectOrigin, .localhostOrigin]) ∧
    cdp_worker_exit
      (fun m => (.error (match m with
        | .noOrigin => 1
        | .inspectOrigin => 2
        | .localhostOrigin => 3) : Except Nat Unit)) = .failedLogged :=
  (cdp_fallback_contract _).2.2.2 1 2 3 rfl rfl rfl

/-- C1 counterexample: with all three managed processes spawned and still
alive at shutdown, the teardown path issues no action at all for the
native-app-runner process — the claim that `terminate` is invoked for every
still-alive spawned process is false. -/
theorem teardown_ignores_cap :
    TermAction.term "cap" ∉ teardown (some true) (some true) (some true) false false ∧
    ∀ a ∈ teardown (some true) (some true) (some true) false false,
      TermAction.label a ≠ "cap" := by
  decide

/-- C1 amended: on every exit path the teardown block terminates the
log-stream process when its handle is set and alive (grace 5 s, then kill on
timeout) and then the dev-server process when its handle is non-null (grace
10 s, then kill on timeout), in reverse spawn order (all log-stream actions
precede all dev-server actions); the native-app-runner handle is never
released by the teardown path. -/
theorem teardown_contract (logcatHandle devHandle capHandle : Option Bool)
    (logcatTimesOut devTimesOut : Bool) :
    teardown logcatHandle devHandle capHandle logcatTimesOut devTimesOut =
      teardown_logcat_part logcatHandle logcatTimesOut ++
        teardown_dev_part devHandle devTimesOut ∧
    (∀ a ∈ teardown_logcat_part logcatHandle logcatTimesOut,
      TermAction.label a = "logcat") ∧
    (∀ a ∈ teardown_dev_part devHandle devTimesOut, TermAction.label a = "dev") ∧
    (logcatHandle = some true →
      teardown_logcat_part logcatHandle logcatTimesOut =
        [TermAction.term "logcat", TermAction.waitGrace "logcat" 5] ++
          (if logcatTimesOut then [TermAction.kill "logcat"] else [])) ∧
    (∀ b, devHandle = some b →
      teardown_dev_part devHandle devTimesOut =
        [TermAction.term "dev", TermAction.waitGrace "dev" 10] ++
          (if devTimesOut then [TermAction.kill "dev"] else [])) ∧
    (∀ a ∈ teardown logcatHandle devHandle capHandle logcatTimesOut devTimesOut,
      TermAction.label a ≠ "cap") := by
  have hlc : ∀ a ∈ teardown_logcat_part logcatHandle logcatTimesOut,
      TermAction.label a = "logcat" := by
    rcases logcatHandle with _ | b
    · cases logcatTimesOut <;> decide
    · cases b <;> cases logcatTimesOut <;> decide
  have hdv : ∀ a ∈ teardown_dev_part devHandle devTimesOut,
      TermAction.label a = "dev" := by
    rcases devHandle with _ | b
    · cases devTimesOut <;> decide
    · cases b <;> cases devTimesOut <;> decide
  refine ⟨rfl, hlc, hdv, ?_, ?_, ?_⟩
  · intro h; rw [h]; cases logcatTimesOut <;> rfl
  · intro b h; rw [h]; cases devTimesOut <;> rfl
  · intro a ha
    rcases List.mem_append.mp ha with h | h
    · rw [hlc a h]; decide
    · rw [hdv a h]; decide

/-- C1 amended witness: with every handle alive and no wait timing out, the
teardown sequence is terminate-logcat, wait 5, terminate-dev, wait 10 — and
nothing addresses the native-app-runner. -/
theorem teardown_contract_witness :
    teardown (some true) (some true) (some true) false false =
      [TermAction.term "logcat", TermAction.waitGrace "logcat" 5,
       TermAction.term "dev", TermAction.waitGrace "dev" 10] := by
  have h := teardown_contract (some true) (some true) (some true) false false
  rw [h.1, h.2.2.2.1 rfl, h.2.2.2.2.1 true rfl]
  decide

/-- C9: when the native-app-runner or dev-server child exits on its own, the
loop logs the exit code and nulls the corresponding handle; the loop never
returns for any interrupt-free trace, and returns exit code 0 exactly when
an interrupt is delivered. -/
theorem session_loop_resilience :
    (∀ code s, s.cap = true → (loop_step (some code) none s).cap = false ∧
      SessionLog.capExited code ∈ (loop_step (some code) none s).log) ∧
    (∀ code s, s.dev = true → (loop_step none (some code) s).dev = false ∧
      SessionLog.devExited code ∈ (loop_step none (some code) s).log) ∧
    (∀ events s, LoopEvent.interrupt ∉ events → (session_loop events s).1 = none) ∧
    (∀ events s, LoopEvent.interrupt ∈ events → (session_loop events s).1 = some 0) := by
  refine ⟨?_, ?_, fun events s => session_loop_no_interrupt events s,
    fun events s => session_loop_interrupt events s⟩
  · intro code s hcap
    obtain ⟨c, d, l⟩ := s
    simp at hcap
    subst hcap
    cases d <;> simp [loop_step, poll_cap, poll_dev]
  · intro code s hdev
    obtain ⟨c, d, l⟩ := s
    simp at hdev
    subst hdev
    cases c <;> simp [loop_step, poll_cap, poll_dev]

/-- C9 witness: the dev-server child exits with code 1 on the first tick;
the session keeps running through a further tick and ends with code 0 only
at the interrupt, having logged the exit. -/
theorem session_loop_resilience_witness :
    (session_loop [LoopEvent.tick none (some 1)] ⟨true, true, []⟩).1 = none ∧
    session_loop [LoopEvent.tick none (some 1), LoopEvent.tick none none,
        LoopEvent.interrupt] ⟨true, true, []⟩ =
      (some 0, ⟨true, false, [SessionLog.devExited 1]⟩) := by
  constructor
  · exact session_loop_resilience.2.2.1 [LoopEvent.tick none (some 1)]
      ⟨true, true, []⟩ (by decide)
  · decide

/-- C7: wifi mode without a host, or npm or npx absent from PATH, exits with
code 2 having spawned no child process; once setup passes, a user interrupt
during the session yields exit code 0. -/
theorem run_exit_codes (env : RunEnv) :
    (env.mode_wifi = true → host_missing env.host = true → run env = (some 2, [])) ∧
    (env.npm_found = false → run env = (some 2, [])) ∧
    (env.npx_found = false → run env = (some 2, [])) ∧
    ((env.mode_wifi && host_missing env.host) = false → env.npm_found = true →
      env.npx_found = true → LoopEvent.interrupt ∈ env.events →
      (run env).1 = some 0) := by
  refine ⟨?_, ?_, ?_, ?_⟩
  · intro h1 h2
    simp [run, h1, h2]
  · intro h
    by_cases hw : (env.mode_wifi && host_missing env.host) = true
    · simp [run, hw]
    · simp [run, hw, h]
  · intro h
    by_cases hw : (env.mode_wifi && host_missing env.host) = true
    · simp [run, hw]
    · by_cases hm : env.npm_found
      · simp [run, hw, hm, h]
      · simp [run, hw, hm]
  · intro hw hm hx hint
    simp [run, hw, hm, hx, session_loop_interrupt env.events _ hint]

/-- C7 witness: wifi mode without a host exits 2 with nothing spawned; with
setup passing, an interrupt after one tick exits 0. -/
theorem run_exit_codes_witness :
    run ⟨true, none, true, true, true, true, []⟩ = (some 2, []) ∧
    (run ⟨false, none, true, true, true, true,
      [LoopEvent.tick none none, LoopEvent.interrupt]⟩).1 = some 0 :=
  ⟨(run_exit_codes ⟨true, none, true, true, true, true, []⟩).1 rfl rfl,
   (run_exit_codes ⟨false, none, true, true, true, true,
      [LoopEvent.tick none none, LoopEvent.interrupt]⟩).2.2.2 rfl rfl rfl (by decide)⟩

end LiveReload
